import Mathlib

/-!
Verification of the insights/indexing engine of `tools/build_insights_index.py`.

The Python source is shallowly embedded: strings are Lean `String`s (processed
as `List Char`, matching Python's code-point semantics), dictionaries/counters
are association lists preserving insertion order (CPython semantics), sets are
lists used only through membership, and `list.sort` is modelled by the stable
`List.mergeSort`.  Python `float` arithmetic appears only in three threshold
computations (`int(total*0.6)`, `int(total*0.35)`, `int(total*0.005)`) and in
TF-IDF/interaction scores; thresholds are idealised to exact rational
arithmetic (noted at each site) and scores are modelled by `ℚ` (respectively
by an explicit score parameter when only the ordering matters).
-/

namespace Insights

/-- Python `一`-`鿿` test used by `ZH_RE` and `is_chinese_term`. -/
def isCJK (c : Char) : Bool :=
  0x4e00 ≤ c.toNat && c.toNat ≤ 0x9fff

/-- ASCII digit (`[0-9]`), modelling Python `\d` / `str.isdigit` on the ASCII
range. -/
def isDigitCh (c : Char) : Bool :=
  48 ≤ c.toNat && c.toNat ≤ 57

/-- ASCII lowercase letter (`[a-z]`). -/
def isLowerCh (c : Char) : Bool :=
  97 ≤ c.toNat && c.toNat ≤ 122

/-- ASCII uppercase letter (`[A-Z]`). -/
def isUpperCh (c : Char) : Bool :=
  65 ≤ c.toNat && c.toNat ≤ 90

/-- ASCII letter (`[A-Za-z]`). -/
def isAlphaCh (c : Char) : Bool :=
  isLowerCh c || isUpperCh c

/-- Word character of `EN_RE`: `[A-Za-z0-9_]`. -/
def isWordCh (c : Char) : Bool :=
  isAlphaCh c || isDigitCh c || c = '_'

/-- Character class of the `word_len` regex `[A-Za-z0-9']+`. -/
def isWordTokCh (c : Char) : Bool :=
  isAlphaCh c || isDigitCh c || c = Char.ofNat 39

/-- Whitespace recognised by Python `\s` / `str.strip` (ASCII part; the
claims never involve the rarely used Unicode whitespace code points). -/
def pySpace (c : Char) : Bool :=
  c = ' ' || c = '\t' || c = '\n' || c = '\r' || c = Char.ofNat 11 || c = Char.ofNat 12

/-- Python `ord(ch) < 128`, used by `str.isascii`. -/
def isAsciiCh (c : Char) : Bool :=
  c.toNat < 128

/-- ASCII lowering of one character, modelling `str.lower()` on the
characters the pipeline compares (A-Z; CJK characters are unaffected by
Python lowering as well). -/
def lowerCh (c : Char) : Char :=
  if 65 ≤ c.toNat ∧ c.toNat ≤ 90 then Char.ofNat (c.toNat + 32) else c

/-- Python `str.lower()` over the underlying character list. -/
def strLower (s : String) : String :=
  String.mk (s.data.map lowerCh)

/-- Accumulator-passing scan underlying `runsBy`; `cur` holds the current
run reversed. -/
def runsByAcc (p : Char → Bool) : List Char → List Char → List (List Char)
  | cur, [] => if cur.isEmpty then [] else [cur.reverse]
  | cur, c :: cs =>
    if p c then runsByAcc p (c :: cur) cs
    else if cur.isEmpty then runsByAcc p [] cs
    else cur.reverse :: runsByAcc p [] cs

/-- Maximal runs of characters satisfying `p`, in order; models repeated
`findall` of a character-class regex such as `ZH_RE` or `[A-Za-z0-9']+`. -/
def runsBy (p : Char → Bool) (cs : List Char) : List (List Char) :=
  runsByAcc p [] cs

/-- Substring test (Python `pat in s` / `re.search` of a literal). -/
def containsSub (needle hay : List Char) : Bool :=
  (List.range (hay.length + 1)).any fun i => needle.isPrefixOf (hay.drop i)

/-- Search for any of a list of literal alternatives, case-insensitively
(both sides lowered with `strLower`, adequate for the ASCII patterns;
CJK characters are unaffected by lowering).  Models `re.search` with
`re.IGNORECASE` on an alternation of literals. -/
def matchAnyCI (pats : List String) (s : String) : Bool :=
  pats.any fun p => containsSub (strLower p).data (strLower s).data

/-- English stopword set `EN_STOPWORDS`. -/
def EN_STOPWORDS : List String :=
  ["a", "an", "and", "are", "as", "at", "be", "but", "by", "for", "from",
   "has", "have", "if", "in", "into", "is", "it", "its", "of", "on", "or",
   "that", "the", "their", "to", "was", "we", "were", "with", "you", "your",
   "i", "me", "my", "our", "they", "them", "this", "these", "those", "not",
   "no", "yes", "can", "could", "should", "would", "will", "just", "also",
   "about", "how", "what", "why", "when", "where", "which", "who", "whom",
   "more", "most", "less", "least", "like", "may", "time", "information",
   "value", "one", "two", "three", "four", "five", "six", "seven", "eight",
   "nine", "ten", "first", "second", "third", "new", "please", "thanks",
   "thank", "using", "used", "useful", "make", "made", "get", "got", "here",
   "key", "keys", "provide", "provided", "provides", "out", "app"]

/-- Chinese stopword set `ZH_STOPWORDS`. -/
def ZH_STOPWORDS : List String :=
  ["的", "了", "是", "我", "你", "他", "她", "它", "我们", "你们", "他们",
   "她们", "它们", "在", "有", "和", "与", "或", "以及", "并", "但", "而",
   "就", "也", "还", "很", "非常", "一个", "这个", "那个", "这些", "那些",
   "如果", "因为", "所以", "为什么", "如何", "什么", "怎么", "什么样",
   "例如", "比如", "问题", "分钟", "小时", "时间", "以下", "是什么",
   "信息", "好的", "因此", "同时", "一下", "一些", "一个人", "这种",
   "那种", "还有", "这里", "那里", "就是", "不会", "可以", "需要",
   "应该", "可能", "现在", "之前", "之后", "然后", "这样", "那样"]

/-- Short English tokens allowed despite the length filter (`SHORT_ALLOW`). -/
def SHORT_ALLOW : List String :=
  ["ai", "ml", "gpt"]

/-- Noise term set `NOISE_TERMS`. -/
def NOISE_TERMS : List String :=
  ["null", "text", "file", "content", "content_type", "expiry_datetime",
   "asset_pointer", "metadata", "direction", "decoding_id", "audio",
   "video", "tool_audio_direction", "search_query", "response_length",
   "textdoc_id", "loaded", "turn", "cite", "navlist", "news", "com",
   "www", "nan", "image", "user", "team", "group", "all", "only", "use"]

/-- Keyword blacklist `KEYWORD_BLACKLIST`. -/
def KEYWORD_BLACKLIST : List String :=
  ["ts", "tsx", "js", "jsx", "json", "yml", "yaml", "md", "html", "css",
   "svg", "png", "jpg", "jpeg", "webp", "gif", "const", "let", "var",
   "import", "export", "return", "async", "await", "function", "class",
   "interface", "type", "extends", "implements", "public", "private",
   "protected", "props", "state", "node_modules", "vite", "babel",
   "webpack", "eslint", "prettier"]

/-- Alias/normalisation table `TERM_ALIASES` (insertion order preserved). -/
def TERM_ALIASES : List (String × String) :=
  [("ai", "AI"), ("gpt", "GPT"), ("llm", "LLM"), ("openai", "OpenAI"),
   ("gemini", "Gemini"), ("claude", "Claude"), ("deepseek", "DeepSeek"),
   ("prompt", "提示词"), ("prompts", "提示词"), ("embedding", "向量"),
   ("embeddings", "向量"), ("fine-tune", "微调"), ("finetune", "微调"),
   ("transformer", "Transformer"), ("transformers", "Transformer"),
   ("人工智能", "AI"), ("大模型", "大模型"), ("机器学习", "机器学习"),
   ("深度学习", "深度学习"), ("提示词", "提示词"),
   ("investment", "投资"), ("invest", "投资"), ("investing", "投资"),
   ("portfolio", "投资组合"), ("stock", "股票"), ("stocks", "股票"),
   ("equity", "股权"), ("bond", "债券"), ("bonds", "债券"),
   ("etf", "ETF"), ("etfs", "ETF"), ("option", "期权"),
   ("options", "期权"), ("future", "期货"), ("futures", "期货"),
   ("finance", "金融"), ("financial", "金融"), ("trading", "交易"),
   ("trade", "交易"), ("market", "市场"), ("markets", "市场"),
   ("risk", "风险"), ("returns", "收益"), ("yield", "收益"),
   ("volatility", "波动"), ("drawdown", "回撤"), ("valuation", "估值"),
   ("nasdaq", "纳斯达克"), ("sp500", "标普500"), ("s&p", "标普"),
   ("ibkr", "盈透"), ("data", "数据"), ("dataset", "数据"),
   ("理财", "理财"), ("投资", "投资"), ("基金", "基金"),
   ("股票", "股票"), ("债券", "债券"), ("期权", "期权"),
   ("期货", "期货"), ("资产配置", "资产配置"), ("资本市场", "资本市场"),
   ("市盈率", "市盈率"), ("现金流", "现金流"),
   ("typescript", "TypeScript"), ("javascript", "JavaScript"),
   ("python", "Python"), ("react", "React"), ("firebase", "Firebase"),
   ("github", "GitHub"), ("vscode", "VSCode"), ("cursor", "Cursor"),
   ("sql", "SQL")]

/-- Domain allowlist `DOMAIN_ZH_TERMS` (a Python set literal; modelled as the
list of its elements in source order, used only through membership). -/
def DOMAIN_ZH_TERMS : List String :=
  ["投资", "理财", "基金", "股票", "债券", "期权", "期货", "回撤",
   "估值", "市盈率", "现金流", "资产配置", "资本市场", "纳斯达克",
   "标普500", "美股", "港股", "A股", "加密", "比特币",
   "大模型", "提示词", "机器学习", "深度学习", "前端", "后端",
   "数据库", "调试", "报错", "部署", "测试",
   "咖啡因", "血压", "血脂", "心率",
   "留学", "课程", "考试", "机票", "航班", "签证", "租房", "保险"]

/-- Topic rule table `TOPIC_RULES`: ordered (label, trigger set) pairs; each
trigger set is modelled as the list of its elements in source order and is
only ever summed over, so its order is irrelevant (proved for claim C9). -/
def TOPIC_RULES : List (String × List String) :=
  [("投资理财",
    ["投资", "理财", "基金", "股票", "债券", "ETF", "期权", "期货",
     "资产配置", "收益", "风险", "回撤", "估值", "市盈率", "现金流",
     "资本市场", "金融", "交易", "纳斯达克", "标普500", "盈透",
     "美股", "港股", "A股", "比特币", "加密"]),
   ("编程开发",
    ["代码", "编程", "开发", "前端", "后端", "数据库", "API", "Python",
     "JavaScript", "TypeScript", "React", "Firebase", "GitHub", "Cursor",
     "VSCode", "SQL", "Docker", "调试", "报错", "部署", "测试"]),
   ("AI/大模型",
    ["AI", "GPT", "LLM", "大模型", "机器学习", "深度学习", "提示词",
     "向量", "微调", "OpenAI", "Gemini", "Claude", "Transformer"]),
   ("职场管理",
    ["MBA", "OKR", "管理", "领导力", "职场", "职业", "面试", "简历",
     "团队", "沟通", "汇报"]),
   ("学习教育",
    ["学习", "课程", "作业", "论文", "考试", "申请", "学校", "大学",
     "留学", "课表", "学分", "项目", "study", "course", "assignment",
     "exam", "university"]),
   ("出行旅行",
    ["旅行", "行程", "路线", "攻略", "机票", "航班", "酒店", "签证",
     "租车", "景点", "travel", "flight", "hotel", "visa", "itinerary"]),
   ("生活服务",
    ["租房", "住房", "房东", "保险", "医疗", "银行", "税务", "购物",
     "餐厅", "交通", "手机", "居住", "生活", "service", "insurance",
     "rent", "housing", "tax"]),
   ("健康运动",
    ["运动", "跑步", "健身", "训练", "睡眠", "咖啡", "咖啡因", "血压",
     "血脂", "减脂", "心率", "营养", "HIIT"]),
   ("软件工具",
    ["Mac", "Windows", "Chrome", "Obsidian", "Figma", "Cursor", "VSCode",
     "GitHub", "代理", "网络"])]

/-- Model of Python `TERM_ALIASES.get`: first matching key, else `none`. -/
def aliasGet (k : String) : Option String :=
  (TERM_ALIASES.find? fun p => p.1 = k).map Prod.snd

/-- Full match of `TURN_TOKEN_RE`, `^turn\d+(?:search|news|view|file|calc|code|media)\d+$`,
on an already lowercased string.  The digit runs are maximal-munch, which is
equivalent to the regex since no alternative of the middle group starts with a
digit. -/
def turnTokenMatch (cs : List Char) : Bool :=
  if ("turn".data).isPrefixOf cs then
    let rest := cs.drop 4
    let digits1 := rest.takeWhile isDigitCh
    let rest1 := rest.dropWhile isDigitCh
    decide (1 ≤ digits1.length) &&
      (["search", "news", "view", "file", "calc", "code", "media"].any fun kw =>
        (kw.data).isPrefixOf rest1 &&
          (let rest2 := rest1.drop kw.length
           decide (1 ≤ rest2.length) && rest2.all isDigitCh))
  else false

/-- Full match of `SHORT_ID_RE`, `^[a-z]{1,2}\d{1,4}$` (input lowercased). -/
def shortIdMatch (cs : List Char) : Bool :=
  let letters := cs.takeWhile isLowerCh
  let rest := cs.dropWhile isLowerCh
  decide (1 ≤ letters.length) && decide (letters.length ≤ 2) &&
    decide (1 ≤ rest.length) && decide (rest.length ≤ 4) && rest.all isDigitCh

/-- Full match of `MIXED_ID_RE`, `^[a-z]{1,3}\d{3,}$` (input lowercased). -/
def mixedIdMatch (cs : List Char) : Bool :=
  let letters := cs.takeWhile isLowerCh
  let rest := cs.dropWhile isLowerCh
  decide (1 ≤ letters.length) && decide (letters.length ≤ 3) &&
    decide (3 ≤ rest.length) && rest.all isDigitCh

/-- Source `is_noise_term`. -/
def is_noise_term (term : String) : Bool :=
  if term = "" then true
  else
    let lower := strLower term
    lower ∈ NOISE_TERMS || turnTokenMatch lower.data ||
      shortIdMatch lower.data || mixedIdMatch lower.data

/-- Source `is_chinese_term`. -/
def is_chinese_term (term : String) : Bool :=
  term.data.any isCJK

/-- Source `normalize_term`.  Python `str.strip()` is modelled by
`String.trim` and `str.lower()` by `strLower` (ASCII lowering; the CJK
characters involved are unaffected). -/
def normalize_term (term : String) : Option String :=
  if term = "" then none
  else
    let t := term.trim
    if t = "" then none
    else
      let lower := strLower t
      let mapped := ((aliasGet lower).getD ((aliasGet t).getD t))
      let mappedLower := strLower mapped
      if is_noise_term mapped then none
      else if mappedLower ∈ EN_STOPWORDS || mappedLower ∈ NOISE_TERMS then none
      else if mapped ∈ ZH_STOPWORDS then none
      else if ("http".data).isPrefixOf mappedLower.data then none
      else if mappedLower ≠ "" && mappedLower.data.all isDigitCh then none
      else if ¬ is_chinese_term mapped &&
          (decide (mappedLower.length ≤ 2) && mappedLower ∉ SHORT_ALLOW) then none
      else if ¬ is_chinese_term mapped &&
          (mappedLower.data.any isDigitCh && decide (mappedLower.length ≤ 3)) then none
      else some mapped

/-- Source `iter_zh_ngrams`: all contiguous n-grams of length
`minLen ≤ n ≤ maxLen` of `seq`, grouped by `n` then by start index. -/
def iter_zh_ngrams (seq : List Char) (minLen maxLen : Nat) : List (List Char) :=
  (List.range' minLen (maxLen + 1 - minLen)).flatMap fun n =>
    if seq.length < n then []
    else (List.range (seq.length - n + 1)).map fun i => (seq.drop i).take n

/-- The CJK runs of a text (`ZH_RE.findall`): maximal runs of CJK characters
of length at least 2. -/
def zhRuns (text : String) : List (List Char) :=
  (runsBy isCJK text.data).filter fun r => decide (2 ≤ r.length)

/-- Candidate n-grams one document contributes to the vocabulary document
frequency, as collected in the `seen` set of `build_zh_vocab` (deduplicated;
order is that of first appearance, membership is all that is used). -/
def zhDocCandidates (text : String) : List String :=
  (((zhRuns text).map fun seq => seq.take 180).flatMap fun seq =>
      (iter_zh_ngrams seq 2 4).filterMap fun t =>
        let s := String.mk t
        if s ∈ ZH_STOPWORDS then none
        else if t.dedup.length = 1 then none
        else some s).dedup

/-- Vocabulary document frequency of a term (`df` counter of
`build_zh_vocab`). -/
def zhDf (texts : List String) (t : String) : Nat :=
  (texts.filter fun text => t ∈ zhDocCandidates text).length

/-- Effective `min_df` of `build_zh_vocab` when called with `min_df=None`. -/
def zhMinDf (texts : List String) : Nat :=
  if max 1 texts.length < 80 then 2 else 3

/-- Effective `max_df` of `build_zh_vocab`: Python `int(total * 0.35)`,
idealised to exact rational truncation `⌊total·35/100⌋` (CPython's float
product first differs from this at `total = 180`). -/
def zhMaxDf (texts : List String) : Nat :=
  max 1 texts.length * 35 / 100

/-- Source `build_zh_vocab` with the default `min_df=None`,
`max_df_ratio=0.35`: the returned Python set is modelled as a list, used only
through membership. -/
def build_zh_vocab (texts : List String) : List String :=
  ((texts.flatMap zhDocCandidates).dedup.filter fun t =>
      decide (zhMinDf texts ≤ zhDf texts t) && decide (zhDf texts t ≤ zhMaxDf texts))
    ++ DOMAIN_ZH_TERMS

/-- Candidate test of the `segment_zh` inner loop: length `n` fits and the
`n`-prefix is a vocabulary word that is not a stopword. -/
def segHit (seq : List Char) (vocab : List String) (n : Nat) : Bool :=
  decide (n ≤ seq.length) &&
    (let cand := String.mk (seq.take n)
     cand ∈ vocab && cand ∉ ZH_STOPWORDS)

/-- Greedy max-match scan of `segment_zh`, driven by a fuel counter that the
wrapper instantiates with the run length (every step consumes at least one
character, so the fuel branch is never reached from the wrapper). -/
def segment_zhF (vocab : List String) : Nat → List Char → List String
  | _, [] => []
  | 0, _ :: _ => []
  | fuel + 1, c :: rest =>
    if segHit (c :: rest) vocab 4 then
      String.mk ((c :: rest).take 4) :: segment_zhF vocab fuel (rest.drop 3)
    else if segHit (c :: rest) vocab 3 then
      String.mk ((c :: rest).take 3) :: segment_zhF vocab fuel (rest.drop 2)
    else if segHit (c :: rest) vocab 2 then
      String.mk ((c :: rest).take 2) :: segment_zhF vocab fuel (rest.drop 1)
    else segment_zhF vocab fuel rest

/-- Source `segment_zh`: greedy longest-match segmentation of a CJK run
against the vocabulary, trying lengths 4, 3, 2 and advancing one character on
failure. -/
def segment_zh (seq : List Char) (vocab : List String) : List String :=
  segment_zhF vocab seq.length seq

/-- Latin-token extraction of `tokenize_v2` (`EN_RE.findall`): within each
maximal run of word characters, the regex `[A-Za-z][A-Za-z0-9_]{1,}` matches
from the first letter to the end of the run provided at least two characters
remain. -/
def enFindall (text : String) : List String :=
  (runsBy isWordCh text.data).filterMap fun run =>
    let m := run.dropWhile (fun c => ¬ isAlphaCh c)
    if 2 ≤ m.length then some (String.mk m) else none

/-- Character budget `MAX_TEXT_CHARS_FOR_TERMS`. -/
def MAX_TEXT_CHARS_FOR_TERMS : Nat := 12000

/-- Source `tokenize_v2`: English pass then CJK pass (vocabulary max-match,
falling back to raw 2-4 n-grams when the vocabulary is empty), all through
`normalize_term`; the input is truncated to the 12000-character budget. -/
def tokenize_v2 (text : String) (zh_vocab : List String) : List String :=
  if text = "" then []
  else
    let limited := String.mk (text.data.take MAX_TEXT_CHARS_FOR_TERMS)
    (enFindall limited).filterMap normalize_term ++
      (zhRuns limited).flatMap fun seq =>
        if String.mk seq ∈ ZH_STOPWORDS then []
        else if zh_vocab = [] then
          (iter_zh_ngrams seq 2 4).filterMap fun t => normalize_term (String.mk t)
        else
          (segment_zh seq zh_vocab).filterMap normalize_term

/-- Keyword-gate threshold `int(total_docs * 0.6)`, idealised to exact
rational truncation `⌊total_docs·6/10⌋` (CPython's float product agrees on
every corpus size up to 200000). -/
def goodKwMaxDf (total_docs : Nat) : Nat :=
  total_docs * 6 / 10

/-- Source `is_good_keyword`; `doc_freq` models `doc_freq.get(term, 0)`. -/
def is_good_keyword (term : String) (doc_freq : String → Nat) (total_docs : Nat) : Bool :=
  if term = "" then false
  else if strLower term ∈ KEYWORD_BLACKLIST then false
  else if is_noise_term term then false
  else if term ∈ ZH_STOPWORDS then false
  else if strLower term ∈ EN_STOPWORDS || strLower term ∈ NOISE_TERMS then false
  else if doc_freq term < 2 then false
  else if doc_freq term > goodKwMaxDf total_docs then false
  else if ¬ is_chinese_term term &&
      (decide ((strLower term).length ≤ 2) && strLower term ∉ SHORT_ALLOW) then false
  else if term.data.all isAsciiCh &&
      (('_' ∈ term.data && decide (6 ≤ term.length)) ||
       (match term.data with
        | c :: restCs => isLowerCh c && restCs.any isUpperCh
        | [] => false) ||
       (["Service", "Panel", "Dashboard", "Interface", "Provider",
         "Controller", "Manager"].any fun suf => (suf.data).isSuffixOf term.data)) then
    false
  else true

/-- Ordering on `(weight, tf, term)` triples realising the Python sort key
`(-weight, -tf, term)`: weight descending, then tf descending, then term
ascending.  Python's stable `list.sort` is modelled by the stable
`List.insertionSort` throughout. -/
def tfidfRel (a b : ℚ × Nat × String) : Prop :=
  b.1 < a.1 ∨ (a.1 = b.1 ∧ (b.2.1 < a.2.1 ∨ (a.2.1 = b.2.1 ∧ a.2.2 ≤ b.2.2)))

instance : DecidableRel tfidfRel := fun a b => by
  unfold tfidfRel
  infer_instance

/-- Source `tfidf_keywords`.  The float score
`(1.0 + math.log(tf)) * idf.get(term, 1.0)` is modelled over `ℚ` with `lnQ`
standing for `math.log` and `idf` for the defaulted table lookup; the claims
about this function are independent of the numeric score values. -/
def tfidf_keywords (term_counts : List (String × Nat)) (lnQ : Nat → ℚ)
    (idf : String → ℚ) (doc_freq : String → Nat) (total_docs limit : Nat) :
    List String :=
  let scored := term_counts.filterMap fun p =>
    if ¬ is_good_keyword p.1 doc_freq total_docs then none
    else if p.2 = 0 then none
    else some ((1 + lnQ p.2) * idf p.1, p.2, p.1)
  ((scored.insertionSort tfidfRel).take limit).map fun x => x.2.2

/-- The `lower_counts` Counter of `assign_topic_label`, looked up at an
already lowercased key: total count of terms whose lowercasing is `s`. -/
def lowerCount (term_counts : List (String × Nat)) (s : String) : Nat :=
  (term_counts.map fun p => if strLower p.1 = s then p.2 else 0).sum

/-- Per-rule score of `assign_topic_label`: the trigger set is summed over,
so only its membership multiset matters. -/
def ruleScore (term_counts : List (String × Nat)) (triggers : List String) : Nat :=
  (triggers.map fun trig => lowerCount term_counts (strLower trig)).sum

/-- The best-label fold of `assign_topic_label`: rules are scanned in order
and the label is replaced only on a strictly greater score. -/
def bestRule (rules : List (String × List String))
    (term_counts : List (String × Nat)) : Option String × Nat :=
  rules.foldl
    (fun best rule =>
      let score := ruleScore term_counts rule.2
      if best.2 < score then (some rule.1, score) else best)
    (none, 0)

/-- Adaptive fallback floor of `assign_topic_label` when called with
`min_fallback_df=None`: Python `3 if total_docs < 100 else max(8,
int(total_docs * 0.005))`, the float truncation idealised to
`⌊total_docs·5/1000⌋` (CPython agrees on every size up to 200000). -/
def minFallbackDf (total_docs : Nat) : Nat :=
  if total_docs < 100 then 3 else max 8 (total_docs * 5 / 1000)

/-- Keyword-fallback scan of `assign_topic_label`: first non-empty keyword
that is not blacklisted, passes the keyword gate and meets the adaptive
document-frequency floor; otherwise the literal fallback label. -/
def fallbackTopic (fallback_keywords : List String) (doc_freq : String → Nat)
    (total_docs : Nat) : String :=
  (fallback_keywords.find? fun kw =>
      kw ≠ "" && strLower kw ∉ KEYWORD_BLACKLIST &&
        is_good_keyword kw doc_freq total_docs &&
        decide (minFallbackDf total_docs ≤ doc_freq kw)).getD "其他"

/-- Source `assign_topic_label` generalised over the rule table (the source
reads the global `TOPIC_RULES`); `fallback_keywords` is the conversation's
own keyword list. -/
def assignTopicLabelWith (rules : List (String × List String))
    (term_counts : List (String × Nat)) (fallback_keywords : List String)
    (doc_freq : String → Nat) (total_docs : Nat) : String :=
  match bestRule rules term_counts with
  | (some label, score) =>
    if 2 ≤ score then label
    else fallbackTopic fallback_keywords doc_freq total_docs
  | (none, _) => fallbackTopic fallback_keywords doc_freq total_docs

/-- Source `assign_topic_label` with the global rule table. -/
def assign_topic_label (term_counts : List (String × Nat))
    (fallback_keywords : List String) (doc_freq : String → Nat)
    (total_docs : Nat) : String :=
  assignTopicLabelWith TOPIC_RULES term_counts fallback_keywords doc_freq total_docs

/-- IDF formula of `build_index`: `math.log((total_docs + 1) / (df + 1)) + 1.0`
over the reals (the Python float computation idealised to exact real
arithmetic). -/
noncomputable def idfOf (total_docs df : Nat) : ℝ :=
  Real.log ((total_docs + 1) / (df + 1)) + 1

/-- The IDF table of `build_index` as a function of a term, via its corpus
document frequency. -/
noncomputable def idfTable (total_docs : Nat) (doc_freq : String → Nat)
    (term : String) : ℝ :=
  idfOf total_docs (doc_freq term)

/-- Collapse every whitespace run to a single blank
(`re.sub(r"\s+", " ", text)`): inside a run, each whitespace character
followed by more whitespace is dropped and the run's last one becomes the
single blank. -/
def squashWS : List Char → List Char
  | [] => []
  | [c] => if pySpace c then [' '] else [c]
  | c :: d :: cs =>
    if pySpace c then
      if pySpace d then squashWS (d :: cs) else ' ' :: squashWS (d :: cs)
    else c :: squashWS (d :: cs)

/-- Python `str.strip()`. -/
def pyStrip (cs : List Char) : List Char :=
  ((cs.dropWhile pySpace).reverse.dropWhile pySpace).reverse

/-- Python `str.rstrip()`. -/
def pyRStrip (cs : List Char) : List Char :=
  (cs.reverse.dropWhile pySpace).reverse

/-- The compacted text of `analyze_user_message`:
`re.sub(r"\s+", " ", text).strip()`. -/
def compactOf (text : String) : List Char :=
  pyStrip (squashWS text.data)

/-- Literal alternatives of `REQUEST_RE`. -/
def REQUEST_PATS : List String :=
  ["请", "帮我", "帮忙", "如何", "怎么", "为什么", "能否", "可否", "请问",
   "怎么做", "how", "what", "why", "can you", "could you"]

/-- Literal alternatives of `CONTEXT_RE`. -/
def CONTEXT_PATS : List String :=
  ["背景", "情况", "我现在", "我目前", "我在", "我是", "我的", "目标",
   "需求", "现状", "因为", "场景", "计划", "打算"]

/-- Literal alternatives of `CONSTRAINT_RE`. -/
def CONSTRAINT_PATS : List String :=
  ["预算", "限制", "必须", "不要", "不想", "至少", "最多", "以内", "以上",
   "不超过", "不高于", "不低于", "prefer", "limit", "budget", "must", "only"]

/-- Literal alternatives of `FEEDBACK_RE`. -/
def FEEDBACK_PATS : List String :=
  ["不对", "错误", "更正", "调整", "修改", "改成", "再", "继续", "太长",
   "太短", "不够", "不太", "不满意", "优化", "精简", "补充", "不是", "改一下"]

/-- Unit alternatives of `UNIT_RE` (already lowercase; the match is performed
on lowercased text, modelling `re.IGNORECASE`). -/
def UNIT_PATS : List String :=
  ["元", "美元", "￥", "¥", "%", "小时", "分钟", "天", "周", "月", "年",
   "km", "公里", "m", "mb", "gb", "k", "w", "万", "usd", "rmb", "dollar",
   "day", "hour", "min"]

/-- Match of `UNIT_RE`, `\d+\s?(unit alternation)`, searched anywhere in the
lowercased text: some position starts a digit run (maximal munch is
equivalent since no unit starts with a digit) followed by an optional single
whitespace and a unit. -/
def unitMatch (cs : List Char) : Bool :=
  (List.range cs.length).any fun i =>
    let t := cs.drop i
    let digits := t.takeWhile isDigitCh
    let rest := t.dropWhile isDigitCh
    decide (1 ≤ digits.length) &&
      (UNIT_PATS.any (fun u => ((strLower u).data).isPrefixOf rest) ||
        (match rest with
         | c :: rest2 => pySpace c && UNIT_PATS.any fun u => ((strLower u).data).isPrefixOf rest2
         | [] => false))

/-- Match of one logical line against `STRUCTURE_RE`'s body
`\s*(?:[-*•]|\d+[\\.、)])`. -/
def structLineMatch (cs : List Char) : Bool :=
  match cs.dropWhile pySpace with
  | [] => false
  | c :: rest =>
    if c = '-' || c = '*' || c = '•' then true
    else if isDigitCh c then
      match rest.dropWhile isDigitCh with
      | d :: _ => d = '\\' || d = '.' || d = '、' || d = ')'
      | [] => false
    else false

/-- Match of `STRUCTURE_RE` with `re.MULTILINE`: some line matches at its
start (leading `\s*` crossing line boundaries reduces to this, since a
bullet line always matches at its own start). -/
def hasStructure (cs : List Char) : Bool :=
  (cs.splitOn '\n').any structLineMatch

/-- Result record of `analyze_user_message` (the returned dict). -/
structure AUM where
  text : String
  char_len : Nat
  clear : Bool
  constraint : Bool
  context : Bool
  feedback : Bool
  vague : Bool

/-- Source `analyze_user_message`. -/
def analyze_user_message (text : String) : AUM :=
  let compact := compactOf text
  let s := String.mk compact
  let char_len := (compact.filter fun c => c ≠ ' ').length
  let word_len := (runsBy isWordTokCh compact).length
  let has_question := '?' ∈ compact || '？' ∈ compact
  let has_request := matchAnyCI REQUEST_PATS s
  let has_structure := hasStructure compact
  let has_numbers := compact.any isDigitCh
  let has_constraints := matchAnyCI CONSTRAINT_PATS s || unitMatch (strLower s).data
  let has_context := matchAnyCI CONTEXT_PATS s || decide (35 ≤ char_len)
  let has_feedback := matchAnyCI FEEDBACK_PATS s
  let clear := has_question || has_request || has_structure ||
    decide (18 ≤ char_len) || decide (6 ≤ word_len)
  let vague := decide (char_len < 12) && !has_question && !has_constraints &&
    !has_context
  { text := s
    char_len := char_len
    clear := clear
    constraint := has_constraints || (has_numbers && decide (12 ≤ char_len))
    context := has_context
    feedback := has_feedback
    vague := vague }

/-- Source `truncate_text` (default `limit=180`). -/
def truncate_text (text : String) (limit : Nat) : String :=
  if text.length ≤ limit then text
  else String.mk (pyRStrip (text.data.take (limit - 1)) ++ ['…'])

/-- One entry of a quote bucket: the `{text, file, score}` dict. -/
structure Quote where
  text : String
  file : String
  score : Int
deriving DecidableEq

/-- Ordering realising the quote sort key `(-score, text)`: score
descending, then text ascending. -/
def quoteRel (a b : Quote) : Prop :=
  b.score < a.score ∨ (a.score = b.score ∧ a.text ≤ b.text)

instance : DecidableRel quoteRel := fun a b => by
  unfold quoteRel
  infer_instance

/-- Source `push_quote`: append, and only when the bucket then exceeds the
cap, re-sort by `(-score, text)` and truncate to the cap. -/
def push_quote (bucket : List Quote) (quote : Quote) (limit : Nat) : List Quote :=
  let b := bucket ++ [quote]
  if b.length ≤ limit then b
  else (b.insertionSort quoteRel).take limit

/-- Apostrophe character, written by code point to keep source scanning
simple. -/
def apos : String :=
  String.mk [Char.ofNat 39]

/-- Literal alternatives of `CLARIFY_RE`. -/
def CLARIFY_PATS : List String :=
  ["请提供", "需要更多", "能否提供", "请补充", "还需要", "更多信息",
   "具体一点", "进一步说明"]

/-- Literal alternatives of `BOUNDARY_RE`. -/
def BOUNDARY_PATS : List String :=
  ["无法", "不能", "不支持", "不便", "不会", "我不能", "我无法",
   "无法访问", "无法浏览", "没有实时", "不具备", "无法提供", "as an ai",
   "i can" ++ apos ++ "t", "i cannot", "i don" ++ apos ++ "t have access",
   "i do not have access"]

/-- One parsed message block: the `{role, body}` dict. -/
structure Message where
  role : String
  body : String

/-- Source `base_role`: leading token of the role label (before the first
blank, then before the first colon), stripped and lowercased. -/
def base_role (role_label : String) : String :=
  if role_label = "" then ""
  else
    (String.mk (pyStrip ((role_label.data.takeWhile fun c => c ≠ ' ').takeWhile
      fun c => c ≠ ':')))

/-- The `interaction_totals` accumulator of `build_index`. -/
structure Totals where
  conversations : Nat
  user_messages : Nat
  assistant_messages : Nat
  clarity_hits : Nat
  constraint_hits : Nat
  context_hits : Nat
  feedback_hits : Nat
  clarify_hits : Nat
  iteration_conversations : Nat
  user_chars : Nat
  assistant_chars : Nat

/-- The `quote_buckets` dict of `build_index` (one bounded pool per user
signal). -/
structure QuoteBuckets where
  clarity : List Quote
  constraint : List Quote
  context : List Quote
  feedback : List Quote
  vague : List Quote

/-- The per-conversation record returned by `analyze_conversation`; rates and
score are modelled over `ℚ` (the Python floats idealised to exact rational
arithmetic). -/
structure ConvRecord where
  file : String
  created_utc : String
  user_messages : Nat
  assistant_messages : Nat
  clarity_rate : ℚ
  constraint_rate : ℚ
  context_rate : ℚ
  feedback_rate : ℚ
  iteration : Nat
  score : ℚ
deriving DecidableEq

/-- The message-partition loop of `analyze_conversation`.  The tool-call
detector `is_tool_call_block` and the cleaner `clean_for_metrics` are passed
as parameters: the claims settled here hold for every choice of these two
text functions, whose JSON/regex internals are otherwise irrelevant to them. -/
def partitionMsgs (messages : List Message) (isTool : String → Bool)
    (clean : String → String) : List String × List String :=
  messages.foldl
    (fun acc msg =>
      let role := base_role msg.role
      if isTool msg.body then acc
      else
        let cleaned := clean msg.body
        if cleaned = "" then acc
        else if role = "user" then (acc.1 ++ [cleaned], acc.2)
        else if role = "assistant" then (acc.1, acc.2 ++ [cleaned])
        else acc)
    ([], [])

/-- Count of non-blank characters, Python `len(text.replace(" ", ""))`. -/
def nonSpaceLen (text : String) : Nat :=
  (text.data.filter fun c => c ≠ ' ').length

/-- The assistant-message loop of `analyze_conversation`: clarification
counting and the boundary quote pool (cap 40). -/
def assistantStep (file_path : String) (st : Totals × List Quote)
    (text : String) : Totals × List Quote :=
  let t := if matchAnyCI CLARIFY_PATS text then
      { st.1 with clarify_hits := st.1.clarify_hits + 1 }
    else st.1
  let bq := if matchAnyCI BOUNDARY_PATS text then
      push_quote st.2 ⟨truncate_text text 180, file_path, (text.length : Int)⟩ 40
    else st.2
  (t, bq)

/-- State of the user-message loop of `analyze_conversation`. -/
structure UserScan where
  clear_hits : Nat
  constraint_hits : Nat
  context_hits : Nat
  feedback_hits : Nat
  vague_hits : Nat
  totals : Totals
  qb : QuoteBuckets

/-- One iteration of the user-message loop of `analyze_conversation`. -/
def userStep (file_path : String) (st : UserScan) (text : String) : UserScan :=
  let m := analyze_user_message text
  let q : Quote := ⟨truncate_text m.text 180, file_path, (m.char_len : Int)⟩
  let vq : Quote := ⟨truncate_text m.text 180, file_path, 100 - (m.char_len : Int)⟩
  let st := if m.clear then
      { st with clear_hits := st.clear_hits + 1,
                totals := { st.totals with clarity_hits := st.totals.clarity_hits + 1 },
                qb := { st.qb with clarity := push_quote st.qb.clarity q 60 } }
    else st
  let st := if m.constraint then
      { st with constraint_hits := st.constraint_hits + 1,
                totals := { st.totals with constraint_hits := st.totals.constraint_hits + 1 },
                qb := { st.qb with constraint := push_quote st.qb.constraint q 60 } }
    else st
  let st := if m.context then
      { st with context_hits := st.context_hits + 1,
                totals := { st.totals with context_hits := st.totals.context_hits + 1 },
                qb := { st.qb with context := push_quote st.qb.context q 60 } }
    else st
  let st := if m.feedback then
      { st with feedback_hits := st.feedback_hits + 1,
                totals := { st.totals with feedback_hits := st.totals.feedback_hits + 1 },
                qb := { st.qb with feedback := push_quote st.qb.feedback q 60 } }
    else st
  if m.vague then
    { st with vague_hits := st.vague_hits + 1,
              qb := { st.qb with vague := push_quote st.qb.vague vq 60 } }
  else st

/-- Source `analyze_conversation`: partitions the cleaned messages, updates
the run-wide accumulators and returns the per-conversation record (`none`
when no usable message remains). -/
def analyze_conversation (messages : List Message) (isTool : String → Bool)
    (clean : String → String) (file_path created_utc : String)
    (totals : Totals) (qb : QuoteBuckets) (bq : List Quote) :
    Option ConvRecord × Totals × QuoteBuckets × List Quote :=
  let p := partitionMsgs messages isTool clean
  let user_msgs := p.1
  let assistant_msgs := p.2
  if user_msgs = [] ∧ assistant_msgs = [] then (none, totals, qb, bq)
  else
    let t1 : Totals :=
      { totals with
        conversations := totals.conversations + 1
        user_messages := totals.user_messages + user_msgs.length
        assistant_messages := totals.assistant_messages + assistant_msgs.length
        user_chars := totals.user_chars + (user_msgs.map nonSpaceLen).sum
        assistant_chars := totals.assistant_chars + (assistant_msgs.map nonSpaceLen).sum }
    let ab := assistant_msgs.foldl (assistantStep file_path) (t1, bq)
    let us := user_msgs.foldl (userStep file_path)
      ⟨0, 0, 0, 0, 0, ab.1, qb⟩
    let user_count : Nat := max 1 user_msgs.length
    let clarity_rate : ℚ := (us.clear_hits : ℚ) / user_count
    let constraint_rate : ℚ := (us.constraint_hits : ℚ) / user_count
    let context_rate : ℚ := (us.context_hits : ℚ) / user_count
    let feedback_rate : ℚ := (us.feedback_hits : ℚ) / user_count
    let iteration_flag : Nat := if 2 ≤ user_msgs.length then 1 else 0
    let t2 := if iteration_flag = 1 then
        { us.totals with iteration_conversations := us.totals.iteration_conversations + 1 }
      else us.totals
    let score : ℚ :=
      (clarity_rate + constraint_rate + context_rate + feedback_rate +
        (iteration_flag : ℚ)) / 5
    (some
      { file := file_path
        created_utc := created_utc
        user_messages := user_msgs.length
        assistant_messages := assistant_msgs.length
        clarity_rate := clarity_rate
        constraint_rate := constraint_rate
        context_rate := context_rate
        feedback_rate := feedback_rate
        iteration := iteration_flag
        score := score },
      t2, us.qb, ab.2)

/-- The fields of an index item consumed by `compute_cluster_trends`.
`created` models `parse_datetime(item["created_utc"])`: `none` when the
timestamp string is missing or unparseable, otherwise an abstract instant
whose only used property is its order (modelled by `Nat`). -/
structure TrendItem where
  file : String
  created : Option Nat
  label : String

/-- One entry of the `improving`/`needs_work` lists (all rationals already
rounded to three decimals, as in the source dict). -/
structure TrendEntry where
  label : String
  delta : ℚ
  early : ℚ
  recent : ℚ
  count : Nat
deriving DecidableEq

/-- Python `round` to the nearest integer, half to even (the float rounding
idealised over `ℚ`). -/
def roundHalfEven (x : ℚ) : ℤ :=
  let f := ⌊x⌋
  if x - f < 1 / 2 then f
  else if (1 : ℚ) / 2 < x - f then f + 1
  else if f % 2 = 0 then f else f + 1

/-- Python `round(x, 3)` over `ℚ`. -/
def round3 (x : ℚ) : ℚ :=
  (roundHalfEven (x * 1000) : ℚ) / 1000

/-- Point-collection loop of `compute_cluster_trends`: items with an
interaction record and a parseable date are grouped by topic label (empty
label falling back to the literal catch-all), in first-occurrence order. -/
def clusterPoints (items : List TrendItem) (records : String → Option ℚ) :
    List (String × List (Nat × ℚ)) :=
  items.foldl
    (fun acc item =>
      match records item.file, item.created with
      | some score, some dt =>
        let cluster := if item.label = "" then "其他" else item.label
        if acc.any fun p => p.1 = cluster then
          acc.map fun p => if p.1 = cluster then (p.1, p.2 ++ [(dt, score)]) else p
        else acc ++ [(cluster, [(dt, score)])]
      | _, _ => acc)
    []

/-- Stable comparison of points by date (`points.sort(key=pair[0])`). -/
def dateRel (a b : Nat × ℚ) : Prop :=
  a.1 ≤ b.1

instance : DecidableRel dateRel := fun a b => by
  unfold dateRel
  infer_instance

/-- One topic's points sorted stably by date (`points.sort(key=pair[0])`). -/
def trendSorted (points : List (Nat × ℚ)) : List (Nat × ℚ) :=
  points.insertionSort dateRel

/-- Midpoint split index `mid = len(points) // 2`. -/
def trendMid (points : List (Nat × ℚ)) : Nat :=
  (trendSorted points).length / 2

/-- Scores of the first (early) half. -/
def trendEarly (points : List (Nat × ℚ)) : List ℚ :=
  ((trendSorted points).take (trendMid points)).map Prod.snd

/-- Scores of the second (recent) half. -/
def trendLate (points : List (Nat × ℚ)) : List ℚ :=
  ((trendSorted points).drop (trendMid points)).map Prod.snd

/-- Mean score of the early half. -/
def trendEarlyAvg (points : List (Nat × ℚ)) : ℚ :=
  (trendEarly points).sum / ((trendEarly points).length : ℚ)

/-- Mean score of the recent half. -/
def trendLateAvg (points : List (Nat × ℚ)) : ℚ :=
  (trendLate points).sum / ((trendLate points).length : ℚ)

/-- The trend delta: recent-half mean minus early-half mean. -/
def trendDelta (points : List (Nat × ℚ)) : ℚ :=
  trendLateAvg points - trendEarlyAvg points

/-- Loop body of `compute_cluster_trends` for one topic: skip when fewer than
`minPoints` points, sort by date, split at the midpoint, compare half means;
`some (true, e)` marks improving (delta at least `0.05`, the float threshold
idealised to `1/20`), `some (false, e)` needs-work (delta at most `-0.05`),
`none` neither. -/
def trendTag (label : String) (points : List (Nat × ℚ)) (minPoints : Nat) :
    Option (Bool × TrendEntry) :=
  if points.length < minPoints then none
  else if trendMid points = 0 ∨ trendMid points = (trendSorted points).length then
    none
  else
    let entry : TrendEntry :=
      ⟨label, round3 (trendDelta points), round3 (trendEarlyAvg points),
        round3 (trendLateAvg points), (trendSorted points).length⟩
    if 1 / 20 ≤ trendDelta points then some (true, entry)
    else if trendDelta points ≤ -(1 / 20) then some (false, entry)
    else none

/-- Ordering for the improving list, sort key `(-delta, -count)`. -/
def impRel (a b : TrendEntry) : Prop :=
  b.delta < a.delta ∨ (a.delta = b.delta ∧ b.count ≤ a.count)

instance : DecidableRel impRel := fun a b => by
  unfold impRel
  infer_instance

/-- Ordering for the needs-work list, sort key `(delta, -count)`. -/
def needRel (a b : TrendEntry) : Prop :=
  a.delta < b.delta ∨ (a.delta = b.delta ∧ b.count ≤ a.count)

instance : DecidableRel needRel := fun a b => by
  unfold needRel
  infer_instance

/-- Source `compute_cluster_trends` (default `min_points=6`), returning the
`improving` and `needs_work` lists. -/
def compute_cluster_trends (items : List TrendItem)
    (records : String → Option ℚ) (minPoints : Nat) :
    List TrendEntry × List TrendEntry :=
  let classified := (clusterPoints items records).filterMap fun p =>
    trendTag p.1 p.2 minPoints
  let improving := ((classified.filter fun c => c.1).map fun c => c.2).insertionSort impRel
  let needs_work := ((classified.filter fun c => !c.1).map fun c => c.2).insertionSort needRel
  (improving.take 4, needs_work.take 4)

/-- One manifest row of `index.csv`, with the numeric fields already
converted as `build_index` does (`int(row.get(...) or 0)`); absent CSV cells
are the empty string. -/
structure Row where
  index : Int
  title : String
  created_utc : String
  updated_utc : String
  messages : Int
  file : String

/-- One per-conversation record of the emitted index (`item` dict). -/
structure Item where
  index : Int
  title : String
  created_utc : String
  updated_utc : String
  messages : Int
  file : String
  snippet : String
  keywords : List String
  highlights : List String
  cluster_label : String

/-- Source `extract_text` with the body normaliser (`normalize_body`, a
line-level cleaner whose JSON/regex internals none of the claims depend on)
passed as the parameter `nb`. -/
def extract_text (nb : String → String) (messages : List Message) : String :=
  String.intercalate "\n" ((messages.map fun m => nb m.body).filter fun s => s ≠ "")

/-- Per-row message list of `build_index`: parse the referenced text file
when it exists, otherwise the empty list (`os.path.exists` branch). -/
def rowMessages (parse : String → List Message) (fs : String → Option String)
    (relFile : String) : List Message :=
  match fs relFile with
  | some content => parse content
  | none => []

/-- Item file reference: `os.path.join(file_root, rel_file) if rel_file else
""` (joining modelled for relative paths) with backslashes normalised. -/
def rowFilePath (file_root relFile : String) : String :=
  if relFile = "" then ""
  else (file_root ++ "/" ++ relFile).replace "\\" "/"

/-- Term-extraction text of one row:
`strip_artifact_lines(f"{title or ''}\n{text_plain}")` with the artifact
filter passed as the parameter `stripArt`. -/
def termText (stripArt : String → String) (title text_plain : String) : String :=
  stripArt ((if title = "" then "" else title) ++ "\n" ++ text_plain)

/-- Python `Counter(terms)`: association list in first-occurrence order. -/
def bump (acc : List (String × Nat)) (x : String) : List (String × Nat) :=
  if acc.any fun p => p.1 = x then
    acc.map fun p => if p.1 = x then (p.1, p.2 + 1) else p
  else acc ++ [(x, 1)]

/-- Python `Counter(terms)` as a fold of `bump`. -/
def counter (l : List String) : List (String × Nat) :=
  l.foldl bump []

/-- Corpus document frequency (`doc_freq` Counter of `build_index`): the
number of documents whose term counter mentions the term. -/
def docFreqFun (docCounts : List (List (String × Nat))) (t : String) : Nat :=
  (docCounts.filter fun c => c.any fun p => p.1 = t).length

/-- Phase-1 output for one row: the base item (keywords and label not yet
assigned) and its term-extraction text. -/
def rowBase (parse : String → List Message) (nb : String → String)
    (hl : List Message → List String) (stripArt : String → String)
    (fs : String → Option String) (snippet_len : Nat) (file_root : String)
    (r : Row) : Item × String :=
  let msgs := rowMessages parse fs r.file
  let text_plain := extract_text nb msgs
  let snippet := String.mk (pyStrip (text_plain.data.take snippet_len))
  ({ index := r.index
     title := if r.title = "" then "Untitled" else r.title
     created_utc := r.created_utc
     updated_utc := r.updated_utc
     messages := r.messages
     file := rowFilePath file_root r.file
     snippet := snippet
     keywords := []
     highlights := hl msgs
     cluster_label := "" },
   termText stripArt r.title text_plain)

/-- Item-construction core of `build_index`, generalised over the topic rule
table (the source reads the global `TOPIC_RULES`): phase 1 builds the base
items and term texts, phase 2 bootstraps the vocabulary, tokenizes each
document once, accumulates document frequency and assigns each item its
TF-IDF keywords and topic label.  The external text cleaners
(`parse_messages`, `normalize_body`, `extract_highlights`,
`strip_artifact_lines`) and the float score shapes (`math.log`, the IDF
value) enter as parameters; everything here is a pure function of them and of
the corpus, which is the deterministic skeleton claim C9 is about. -/
def buildItemsWith (parse : String → List Message) (nb : String → String)
    (hl : List Message → List String) (stripArt : String → String)
    (lnQ : Nat → ℚ) (idfQ : Nat → Nat → ℚ)
    (rules : List (String × List String)) (rows : List Row)
    (fs : String → Option String) (snippet_len : Nat) (file_root : String) :
    List Item :=
  let base := rows.map (rowBase parse nb hl stripArt fs snippet_len file_root)
  let term_texts := base.map fun b => b.2
  let zh_vocab := build_zh_vocab term_texts
  let docCounts := term_texts.map fun t => counter (tokenize_v2 t zh_vocab)
  let total_docs := max 1 rows.length
  let dfF := docFreqFun docCounts
  let idfF : String → ℚ := fun t => if dfF t = 0 then 1 else idfQ total_docs (dfF t)
  (base.zip docCounts).map fun bc =>
    let keywords := tfidf_keywords bc.2 lnQ idfF dfF total_docs 8
    { bc.1.1 with
      keywords := keywords,
      cluster_label := assignTopicLabelWith rules bc.2 keywords dfF total_docs }

/-- Item-construction core of `build_index` with the global rule table. -/
def buildItems (parse : String → List Message) (nb : String → String)
    (hl : List Message → List String) (stripArt : String → String)
    (lnQ : Nat → ℚ) (idfQ : Nat → Nat → ℚ) (rows : List Row)
    (fs : String → Option String) (snippet_len : Nat) (file_root : String) :
    List Item :=
  buildItemsWith parse nb hl stripArt lnQ idfQ TOPIC_RULES rows fs snippet_len file_root

/-! ## Theorems -/

attribute [local semireducible] Rat.add Rat.sub Rat.mul Rat.inv Rat.ofScientific

/-- A non-empty accumulator is flushed as the head run. -/
theorem runsByAcc_ne_nil (p : Char → Bool) :
    ∀ (cs cur : List Char), cur ≠ [] →
      runsByAcc p cur cs =
        (cur.reverse ++ cs.takeWhile p) :: runsByAcc p [] (cs.dropWhile p)
  | [], cur, h => by
    simp [runsByAcc, List.isEmpty_iff, h]
  | c :: cs, cur, h => by
    rw [runsByAcc]
    by_cases hc : p c
    · rw [if_pos hc, runsByAcc_ne_nil p cs (c :: cur) (by simp),
        List.takeWhile_cons, if_pos hc, List.dropWhile_cons, if_pos hc]
      simp
    · rw [if_neg hc, if_neg (by simpa [List.isEmpty_iff] using h),
        List.takeWhile_cons, if_neg hc, List.dropWhile_cons, if_neg hc]
      simp [runsByAcc, hc]

/-- Unfolding equation of `runsBy` in takeWhile/dropWhile form. -/
theorem runsBy_cons (p : Char → Bool) (c : Char) (cs : List Char) :
    runsBy p (c :: cs) =
      if p c then (c :: cs.takeWhile p) :: runsBy p (cs.dropWhile p)
      else runsBy p cs := by
  unfold runsBy
  rw [runsByAcc]
  by_cases hc : p c
  · rw [if_pos hc, if_pos hc, runsByAcc_ne_nil p cs [c] (by simp)]
    simp
  · simp [hc, runsByAcc]

/-- C4: the IDF table of `build_index` assigns each term
`ln((N+1)/(df+1)) + 1`, and IDF is strictly decreasing in document
frequency: a term with strictly smaller document frequency gets a strictly
larger IDF. -/
theorem C4_idf_formula_and_monotone (total_docs : Nat) (doc_freq : String → Nat)
    (t1 t2 : String) :
    idfTable total_docs doc_freq t1 =
      Real.log ((total_docs + 1) / (doc_freq t1 + 1)) + 1 ∧
    (doc_freq t1 < doc_freq t2 →
      idfTable total_docs doc_freq t2 < idfTable total_docs doc_freq t1) := by
  constructor
  · rfl
  · intro h
    have h1 : (0 : ℝ) < doc_freq t1 + 1 := by positivity
    have h2 : (0 : ℝ) < doc_freq t2 + 1 := by positivity
    have hN : (0 : ℝ) < total_docs + 1 := by positivity
    have hdf : (doc_freq t1 : ℝ) + 1 < (doc_freq t2 : ℝ) + 1 := by
      exact_mod_cast Nat.add_lt_add_right h 1
    have hfrac : ((total_docs : ℝ) + 1) / (doc_freq t2 + 1) <
        ((total_docs : ℝ) + 1) / (doc_freq t1 + 1) := by
      exact div_lt_div_of_pos_left hN h1 hdf
    have hpos : (0 : ℝ) < ((total_docs : ℝ) + 1) / (doc_freq t2 + 1) :=
      div_pos hN h2
    have := Real.log_lt_log hpos hfrac
    simpa [idfTable, idfOf] using add_lt_add_right this 1

/-- Witness for C4 at a concrete corpus: document frequencies 1 and 3 in a
corpus of 10 documents. -/
theorem C4_idf_witness :
    (fun t => if t = "a" then 1 else 3) "a" < (fun t => if t = "a" then 1 else 3) "b" ∧
    idfTable 10 (fun t => if t = "a" then 1 else 3) "b" <
      idfTable 10 (fun t => if t = "a" then 1 else 3) "a" :=
  ⟨by decide,
   (C4_idf_formula_and_monotone 10 (fun t => if t = "a" then 1 else 3) "a" "b").2
     (by decide)⟩

instance : IsTrans Quote quoteRel :=
  ⟨by
    intro a b c hab hbc
    rcases hab with h | ⟨h1, h2⟩ <;> rcases hbc with g | ⟨g1, g2⟩
    · exact Or.inl (g.trans h)
    · exact Or.inl (g1 ▸ h)
    · exact Or.inl (h1 ▸ g)
    · exact Or.inr ⟨h1.trans g1, h2.trans g2⟩⟩

instance : IsTotal Quote quoteRel :=
  ⟨by
    intro a b
    rcases lt_trichotomy a.score b.score with h | h | h
    · exact Or.inr (Or.inl h)
    · rcases le_total a.text b.text with ht | ht
      · exact Or.inl (Or.inr ⟨h, ht⟩)
      · exact Or.inr (Or.inr ⟨h.symm, ht⟩)
    · exact Or.inl (Or.inl h)⟩

/-- C6 counterexample: two insertions under the cap leave the bucket in
insertion order, not sorted by descending score, refuting the claim that the
bucket is always kept sorted. -/
theorem C6_push_quote_counterexample :
    push_quote (push_quote [] ⟨"a", "f", 1⟩ 60) ⟨"b", "g", 5⟩ 60 =
      [⟨"a", "f", 1⟩, ⟨"b", "g", 5⟩] ∧
    ¬ List.Sorted quoteRel
        (push_quote (push_quote [] ⟨"a", "f", 1⟩ 60) ⟨"b", "g", 5⟩ 60) := by
  constructor
  · decide
  · intro h
    have := List.rel_of_sorted_cons h ⟨"b", "g", 5⟩ (by decide)
    rcases this with h1 | ⟨h1, _⟩ <;> simp_all

/-- C6 amended: a `push_quote` insertion never leaves more than the cap, an
insertion that stays within the cap merely appends (so the bucket is in
insertion order, not necessarily sorted), and an insertion that overflows the
cap re-sorts by `(-score, text)` and keeps exactly the top-cap entries of the
bucket plus the new entry, leaving the bucket sorted by descending score with
ties broken by text. -/
theorem C6_push_quote_amended (bucket : List Quote) (q : Quote) (L : Nat) :
    (push_quote bucket q L).length ≤ L ∧
    (bucket.length + 1 ≤ L → push_quote bucket q L = bucket ++ [q]) ∧
    (L < bucket.length + 1 →
      push_quote bucket q L = ((bucket ++ [q]).insertionSort quoteRel).take L ∧
      List.Sorted quoteRel (push_quote bucket q L)) := by
  have heq : push_quote bucket q L =
      if bucket.length + 1 ≤ L then bucket ++ [q]
      else ((bucket ++ [q]).insertionSort quoteRel).take L := by
    simp [push_quote]
  by_cases h : bucket.length + 1 ≤ L
  · refine ⟨?_, fun _ => by simp [heq, h], fun hc => absurd h (Nat.not_le.mpr hc)⟩
    simp [heq, h]
  · refine ⟨?_, fun hc => absurd hc h, fun _ => ⟨by simp [heq, h], ?_⟩⟩
    · simp only [heq, if_neg h, List.length_take, List.length_insertionSort]
      exact Nat.min_le_left L _
    · simp only [heq, if_neg h]
      exact (List.sorted_insertionSort quoteRel (bucket ++ [q])).sublist
        (List.take_sublist L _)

/-- Witness for C6 at a concrete overflowing insertion with cap 1. -/
theorem C6_push_quote_witness :
    (push_quote [(⟨"a", "f", 1⟩ : Quote)] ⟨"b", "g", 5⟩ 1).length ≤ 1 ∧
    push_quote [(⟨"a", "f", 1⟩ : Quote)] ⟨"b", "g", 5⟩ 1 =
      (([(⟨"a", "f", 1⟩ : Quote)] ++ [(⟨"b", "g", 5⟩ : Quote)]).insertionSort quoteRel).take 1 :=
  ⟨(C6_push_quote_amended [⟨"a", "f", 1⟩] ⟨"b", "g", 5⟩ 1).1,
   ((C6_push_quote_amended [⟨"a", "f", 1⟩] ⟨"b", "g", 5⟩ 1).2.2 (by decide)).1⟩

/-- Valid code points are faithfully round-tripped by `Char.ofNat`. -/
theorem toNat_charOfNat {n : Nat} (h : n.isValidChar) : (Char.ofNat n).toNat = n := by
  rw [Char.ofNat, dif_pos h]
  rcases h with h | h
  · simp [Char.ofNatAux, Char.toNat, UInt32.toNat, UInt32.ofNatCore]
  · simp [Char.ofNatAux, Char.toNat, UInt32.toNat, UInt32.ofNatCore]

/-- Lowering never creates or destroys an ASCII digit. -/
theorem isDigitCh_lowerCh (c : Char) : isDigitCh (lowerCh c) = isDigitCh c := by
  unfold lowerCh isDigitCh
  by_cases h : 65 ≤ c.toNat ∧ c.toNat ≤ 90
  · have hv : (c.toNat + 32).isValidChar := Or.inl (by omega)
    rw [if_pos h, toNat_charOfNat hv]
    have h1 : ¬ (c.toNat + 32 ≤ 57) := by omega
    have h2 : ¬ (c.toNat ≤ 57) := by omega
    simp [h1, h2]
  · rw [if_neg h]

/-- `UNIT_RE` cannot match a digit-free text. -/
theorem unitMatch_eq_false_of_no_digit (cs : List Char)
    (h : ∀ c ∈ cs, isDigitCh c = false) : unitMatch cs = false := by
  simp only [unitMatch, List.any_eq_false, List.mem_range]
  intro i _
  cases hcase : cs.drop i with
  | nil => simp [hcase]
  | cons c t =>
    have hc : c ∈ cs := by
      have : c ∈ cs.drop i := by simp [hcase]
      exact (List.drop_sublist i cs).mem this
    have htw : List.takeWhile isDigitCh (c :: t) = [] := by
      rw [List.takeWhile_cons, h c hc]
      simp
    simp [hcase, htw]

/-- Accumulated form of the run-count bound: with an empty accumulator the
run count is bounded by the `p`-character count, with a non-empty one by that
count plus one. -/
theorem runsByAcc_length_le (p : Char → Bool) (cs : List Char) :
    (runsByAcc p [] cs).length ≤ (cs.filter p).length ∧
    ∀ c cur, (runsByAcc p (c :: cur) cs).length ≤ (cs.filter p).length + 1 := by
  induction cs with
  | nil => simp [runsByAcc]
  | cons x cs ih =>
    obtain ⟨ih0, ih1⟩ := ih
    constructor
    · rw [runsByAcc]
      by_cases h : p x
      · simpa [h, List.filter_cons_of_pos h] using ih1 x []
      · simpa [h, List.filter_cons_of_neg h] using ih0
    · intro c cur
      rw [runsByAcc]
      by_cases h : p x
      · have := ih1 x (c :: cur)
        simp only [if_pos h, List.filter_cons_of_pos h, List.length_cons]
        omega
      · simp only [if_neg h, List.isEmpty_cons, List.filter_cons_of_neg h,
          Bool.false_eq_true, if_false, List.length_cons]
        omega

/-- There are at most as many maximal `p`-runs as `p`-characters. -/
theorem runsBy_length_le (p : Char → Bool) (cs : List Char) :
    (runsBy p cs).length ≤ (cs.filter p).length :=
  (runsByAcc_length_le p cs).1

/-- Word-class characters are never the blank character. -/
theorem isWordTokCh_ne_space {c : Char} (h : isWordTokCh c = true) : c ≠ ' ' := by
  rintro rfl
  exact absurd h (by decide)

/-- C7 counterexample: the five-character user message `请帮我总结` has no
question mark and no digit, yet `analyze_user_message` reports it as clear
(the request pattern `请` fires), refuting `clarity = 0` of Scenario B as
stated; likewise the five-character `不要这样做` (no question mark, no
digit) is not reported vague, since the constraint pattern `不要` fires. -/
theorem C7_scenario_b_counterexample :
    ((analyze_user_message "请帮我总结").char_len = 5 ∧
     ('?' ∉ compactOf "请帮我总结" ∧ '？' ∉ compactOf "请帮我总结") ∧
     (compactOf "请帮我总结").any isDigitCh = false ∧
     (analyze_user_message "请帮我总结").clear = true) ∧
    ((analyze_user_message "不要这样做").char_len = 5 ∧
     ('?' ∉ compactOf "不要这样做" ∧ '？' ∉ compactOf "不要这样做") ∧
     (compactOf "不要这样做").any isDigitCh = false ∧
     (analyze_user_message "不要这样做").vague = false) := by
  decide

/-- C7 amended: a user message whose compacted text has five non-blank
characters, no question mark, no digit, and which matches none of the
request, structure, constraint and context patterns, is reported vague and
not clear. -/
theorem C7_scenario_b_amended (text : String)
    (hlen : (analyze_user_message text).char_len = 5)
    (hq : '?' ∉ compactOf text ∧ '？' ∉ compactOf text)
    (hd : ∀ c ∈ compactOf text, isDigitCh c = false)
    (hreq : matchAnyCI REQUEST_PATS (String.mk (compactOf text)) = false)
    (hstr : hasStructure (compactOf text) = false)
    (hcon : matchAnyCI CONSTRAINT_PATS (String.mk (compactOf text)) = false)
    (hctx : matchAnyCI CONTEXT_PATS (String.mk (compactOf text)) = false) :
    (analyze_user_message text).vague = true ∧
    (analyze_user_message text).clear = false := by
  have hchar : ((compactOf text).filter fun c => c ≠ ' ').length = 5 := hlen
  have hunit : unitMatch (strLower (String.mk (compactOf text))).data = false := by
    apply unitMatch_eq_false_of_no_digit
    intro c hc
    simp only [strLower, List.mem_map] at hc
    obtain ⟨a, ha, rfl⟩ := hc
    rw [isDigitCh_lowerCh]
    exact hd a ha
  have hwords : (runsBy isWordTokCh (compactOf text)).length < 6 := by
    have h1 := runsBy_length_le isWordTokCh (compactOf text)
    have h2 : ((compactOf text).filter isWordTokCh).length ≤
        ((compactOf text).filter fun c => c ≠ ' ').length := by
      rw [← List.countP_eq_length_filter, ← List.countP_eq_length_filter]
      exact List.countP_mono_left fun c _ h => by
        simpa using isWordTokCh_ne_space h
    omega
  have hq1 : ('?' ∈ compactOf text) = False := by simp [hq.1]
  have hq2 : ('？' ∈ compactOf text) = False := by simp [hq.2]
  constructor
  · simp only [analyze_user_message, hchar, hq1, hq2, hreq, hstr, hcon, hctx,
      hunit, hwords]
    simp
  · simp only [analyze_user_message, hchar, hq1, hq2, hreq, hstr, hcon, hctx,
      hunit]
    simp
    omega

/-- Witness for C7 at the concrete neutral five-character message. -/
theorem C7_scenario_b_witness :
    (analyze_user_message "天空很蓝色").vague = true ∧
    (analyze_user_message "天空很蓝色").clear = false :=
  C7_scenario_b_amended "天空很蓝色" (by decide) (by decide) (by decide)
    (by decide) (by decide) (by decide) (by decide)

/-- Every generated n-gram has length between the requested bounds. -/
theorem iter_zh_ngrams_length {seq u : List Char}
    (h : u ∈ iter_zh_ngrams seq 2 4) : 2 ≤ u.length ∧ u.length ≤ 4 := by
  simp only [iter_zh_ngrams, List.mem_flatMap, List.mem_range'] at h
  obtain ⟨n, ⟨h2, hlt⟩, hu⟩ := h
  by_cases hb : seq.length < n
  · simp [hb] at hu
  · simp only [hb, if_false, List.mem_map, List.mem_range] at hu
    obtain ⟨i, hi, rfl⟩ := hu
    have hlen : ((seq.drop i).take n).length = n := by
      simp only [List.length_take, List.length_drop]
      omega
    omega

/-- Every vocabulary candidate of one document is an n-gram of length 2-4. -/
theorem zhDocCandidates_length {text : String} {t : String}
    (h : t ∈ zhDocCandidates text) : 2 ≤ t.length ∧ t.length ≤ 4 := by
  simp only [zhDocCandidates, List.mem_dedup, List.mem_flatMap,
    List.mem_filterMap, List.mem_map] at h
  obtain ⟨seq, _, u, hu, ht⟩ := h
  by_cases h1 : String.mk u ∈ ZH_STOPWORDS
  · simp [h1] at ht
  · by_cases h2 : u.dedup.length = 1
    · simp [h1, h2] at ht
    · simp only [h1, h2, if_neg, if_false] at ht
      obtain rfl := Option.some_injective _ ht
      exact iter_zh_ngrams_length hu

/-- C2 counterexample: on the empty corpus the vocabulary is exactly the
domain allowlist, whose member `标普500` has length 5 and document frequency
0, violating both the length bound and the `df ≥ min_df` bound claimed for
every vocabulary entry. -/
theorem C2_build_zh_vocab_counterexample :
    "标普500" ∈ build_zh_vocab [] ∧ zhDf [] "标普500" = 0 ∧ zhMinDf [] = 2 ∧
    ¬ ("标普500".length ≤ 4 ∧ zhMinDf [] ≤ zhDf [] "标普500") := by
  decide

/-- C2 amended: every entry of the bootstrapped vocabulary either comes from
the fixed domain allowlist or is an n-gram of length 2-4 whose document
frequency lies within `[min_df, max_df]`; and the allowlist is always a
subset of the vocabulary. -/
theorem C2_build_zh_vocab_amended (texts : List String) :
    (∀ t ∈ build_zh_vocab texts,
      t ∈ DOMAIN_ZH_TERMS ∨
        (2 ≤ t.length ∧ t.length ≤ 4 ∧
          zhMinDf texts ≤ zhDf texts t ∧ zhDf texts t ≤ zhMaxDf texts)) ∧
    ∀ d ∈ DOMAIN_ZH_TERMS, d ∈ build_zh_vocab texts := by
  constructor
  · intro t ht
    rcases List.mem_append.mp ht with hf | hd
    · right
      obtain ⟨hmem, hcond⟩ := List.mem_filter.mp hf
      simp only [Bool.and_eq_true, decide_eq_true_eq] at hcond
      have hlen : 2 ≤ t.length ∧ t.length ≤ 4 := by
        obtain ⟨text, _, hc⟩ := List.mem_flatMap.mp (List.mem_dedup.mp hmem)
        exact zhDocCandidates_length hc
      exact ⟨hlen.1, hlen.2, hcond.1, hcond.2⟩
    · exact Or.inl hd
  · intro d hd
    exact List.mem_append.mpr (Or.inr hd)

/-- Witness for C2 on the empty corpus with the allowlist term `投资`. -/
theorem C2_build_zh_vocab_witness :
    "投资" ∈ build_zh_vocab [] ∧
    ("投资" ∈ DOMAIN_ZH_TERMS ∨
      (2 ≤ "投资".length ∧ "投资".length ≤ 4 ∧
        zhMinDf [] ≤ zhDf [] "投资" ∧ zhDf [] "投资" ≤ zhMaxDf [])) :=
  ⟨(C2_build_zh_vocab_amended []).2 "投资" (by decide),
   (C2_build_zh_vocab_amended []).1 "投资"
     ((C2_build_zh_vocab_amended []).2 "投资" (by decide))⟩

/-- Unpacking of the keyword gate: a term accepted by `is_good_keyword` is
not blacklisted, not a noise or stopword term, and its document frequency is
at least 2 and at most the 60%-of-corpus cap. -/
theorem is_good_keyword_spec {term : String} {doc_freq : String → Nat}
    {total_docs : Nat} (h : is_good_keyword term doc_freq total_docs = true) :
    strLower term ∉ KEYWORD_BLACKLIST ∧ is_noise_term term = false ∧
    term ∉ ZH_STOPWORDS ∧ strLower term ∉ EN_STOPWORDS ∧
    strLower term ∉ NOISE_TERMS ∧ 2 ≤ doc_freq term ∧
    doc_freq term ≤ goodKwMaxDf total_docs := by
  unfold is_good_keyword at h
  split_ifs at h with h0 h1 h2 h3 h4 h5 h6 h7 h8
  simp only [Bool.or_eq_true, decide_eq_true_eq, not_or] at h4
  refine ⟨h1, ?_, h3, h4.1, h4.2, by omega, by omega⟩
  simpa using h2

/-- C1: for every conversation the TF-IDF keyword list with limit 8 has at
most 8 entries, and every entry passes the keyword gate (hence is not
blacklisted, not a noise/stopword term, has document frequency at least 2 and
at most 60% of the corpus size). -/
theorem C1_tfidf_keyword_bound (term_counts : List (String × Nat))
    (lnQ : Nat → ℚ) (idf : String → ℚ) (doc_freq : String → Nat)
    (total_docs : Nat) :
    (tfidf_keywords term_counts lnQ idf doc_freq total_docs 8).length ≤ 8 ∧
    ∀ t ∈ tfidf_keywords term_counts lnQ idf doc_freq total_docs 8,
      is_good_keyword t doc_freq total_docs = true ∧
      strLower t ∉ KEYWORD_BLACKLIST ∧ is_noise_term t = false ∧
      t ∉ ZH_STOPWORDS ∧ strLower t ∉ EN_STOPWORDS ∧
      strLower t ∉ NOISE_TERMS ∧ 2 ≤ doc_freq t ∧
      doc_freq t ≤ goodKwMaxDf total_docs := by
  constructor
  · simp only [tfidf_keywords, List.length_map]
    exact List.length_take_le 8 _
  · intro t ht
    simp only [tfidf_keywords, List.mem_map] at ht
    obtain ⟨x, hx, rfl⟩ := ht
    have hx2 : x ∈ (term_counts.filterMap fun p =>
        if ¬ is_good_keyword p.1 doc_freq total_docs then none
        else if p.2 = 0 then none
        else some ((1 + lnQ p.2) * idf p.1, p.2, p.1)).insertionSort tfidfRel :=
      List.mem_of_mem_take hx
    rw [List.mem_insertionSort] at hx2
    obtain ⟨p, _, hp⟩ := List.mem_filterMap.mp hx2
    split_ifs at hp with hg hz
    obtain rfl := Option.some_injective _ hp
    have hgate : is_good_keyword p.1 doc_freq total_docs = true := by
      simpa using hg
    obtain ⟨a, b, c, d, e, f, g⟩ := is_good_keyword_spec hgate
    exact ⟨hgate, a, b, c, d, e, f, g⟩

/-- Witness for C1 at a one-document term table over a ten-document corpus. -/
theorem C1_tfidf_keyword_witness :
    (tfidf_keywords [("投资", 3)] (fun _ => 0) (fun _ => 1)
      (fun t => if t = "投资" then 2 else 0) 10 8).length ≤ 8 ∧
    is_good_keyword "投资" (fun t => if t = "投资" then 2 else 0) 10 = true :=
  ⟨(C1_tfidf_keyword_bound [("投资", 3)] (fun _ => 0) (fun _ => 1)
      (fun t => if t = "投资" then 2 else 0) 10).1,
   ((C1_tfidf_keyword_bound [("投资", 3)] (fun _ => 0) (fun _ => 1)
      (fun t => if t = "投资" then 2 else 0) 10).2 "投资" (by decide)).1⟩

/-- A label produced by the best-rule fold is one of the rule labels (unless
it was already in the initial state). -/
theorem bestRule_aux_mem (term_counts : List (String × Nat)) (l : String) :
    ∀ (rules : List (String × List String)) (init : Option String × Nat),
      (rules.foldl
        (fun best rule =>
          let score := ruleScore term_counts rule.2
          if best.2 < score then (some rule.1, score) else best)
        init).1 = some l →
      init.1 = some l ∨ l ∈ rules.map Prod.fst
  | [], init => fun h => Or.inl h
  | rule :: rules, init => by
    intro h
    rcases bestRule_aux_mem term_counts l rules _ h with hi | hm
    · by_cases hs : init.2 < ruleScore term_counts rule.2
      · simp only [if_pos hs] at hi
        have hl : rule.1 = l := by simpa using hi
        right
        simp only [List.map_cons, List.mem_cons]
        exact Or.inl hl.symm
      · simp only [if_neg hs] at hi
        exact Or.inl hi
    · right
      simp only [List.map_cons, List.mem_cons]
      exact Or.inr hm

/-- The winning label of `bestRule` is one of the rule labels. -/
theorem bestRule_mem {rules : List (String × List String)}
    {term_counts : List (String × Nat)} {l : String} {s : Nat}
    (h : bestRule rules term_counts = (some l, s)) : l ∈ rules.map Prod.fst := by
  have h1 : (bestRule rules term_counts).1 = some l := by rw [h]
  rcases bestRule_aux_mem term_counts l rules (none, 0) h1 with hi | hm
  · exact absurd hi (by simp)
  · exact hm

/-- The fallback scan either returns a keyword from the conversation's own
list (non-empty, passing the gate and the adaptive floor) or the literal
catch-all label. -/
theorem fallbackTopic_spec (kws : List String) (doc_freq : String → Nat)
    (total_docs : Nat) :
    (fallbackTopic kws doc_freq total_docs ∈ kws ∧
      is_good_keyword (fallbackTopic kws doc_freq total_docs) doc_freq total_docs = true ∧
      minFallbackDf total_docs ≤ doc_freq (fallbackTopic kws doc_freq total_docs)) ∨
    fallbackTopic kws doc_freq total_docs = "其他" := by
  unfold fallbackTopic
  cases hf : kws.find? fun kw =>
      kw ≠ "" && strLower kw ∉ KEYWORD_BLACKLIST &&
        is_good_keyword kw doc_freq total_docs &&
        decide (minFallbackDf total_docs ≤ doc_freq kw) with
  | none => exact Or.inr rfl
  | some kw =>
    left
    have hmem := List.mem_of_find?_eq_some hf
    have hpred := List.find?_some hf
    simp only [Bool.and_eq_true, decide_eq_true_eq] at hpred
    exact ⟨by simpa using hmem, hpred.1.2, hpred.2⟩

/-- C3: the topic label assigned to a conversation is always one of the fixed
rule-table labels, or a keyword from that conversation's own keyword list
(one that passes the keyword gate and the adaptive fallback floor), or the
literal catch-all label; never any other corpus term. -/
theorem C3_topic_label_coverage (term_counts : List (String × Nat))
    (kws : List String) (doc_freq : String → Nat) (total_docs : Nat) :
    assign_topic_label term_counts kws doc_freq total_docs ∈
        TOPIC_RULES.map Prod.fst ∨
    (assign_topic_label term_counts kws doc_freq total_docs ∈ kws ∧
      is_good_keyword (assign_topic_label term_counts kws doc_freq total_docs)
        doc_freq total_docs = true ∧
      minFallbackDf total_docs ≤
        doc_freq (assign_topic_label term_counts kws doc_freq total_docs)) ∨
    assign_topic_label term_counts kws doc_freq total_docs = "其他" := by
  unfold assign_topic_label assignTopicLabelWith
  cases hbr : bestRule TOPIC_RULES term_counts with
  | mk obl score =>
    cases obl with
    | none =>
      rcases fallbackTopic_spec kws doc_freq total_docs with hk | ho
      · exact Or.inr (Or.inl hk)
      · exact Or.inr (Or.inr ho)
    | some label =>
      by_cases hs : 2 ≤ score
      · simp only [if_pos hs]
        exact Or.inl (bestRule_mem hbr)
      · simp only [if_neg hs]
        rcases fallbackTopic_spec kws doc_freq total_docs with hk | ho
        · exact Or.inr (Or.inl hk)
        · exact Or.inr (Or.inr ho)

/-- C5: `compute_cluster_trends` classifies exactly the topics with at least
6 dated, scored points; after sorting by date and splitting at the midpoint,
a delta of at least `0.05` marks improving and of at most `-0.05` needs-work,
topics with fewer points landing in neither list; and on Scenario E's
concrete corpus (8 dated conversations, half means 0.3 and 0.5) the topic
appears in the improving list with delta 0.2. -/
theorem C5_cluster_trends :
    (∀ (label : String) (points : List (Nat × ℚ)),
      (points.length < 6 → trendTag label points 6 = none) ∧
      (6 ≤ points.length →
        (((trendTag label points 6).map Prod.fst = some true) ↔
          1 / 20 ≤ trendDelta points) ∧
        (((trendTag label points 6).map Prod.fst = some false) ↔
          trendDelta points ≤ -(1 / 20)))) ∧
    compute_cluster_trends
      [⟨"f0", some 0, "AI/大模型"⟩, ⟨"f1", some 1, "AI/大模型"⟩,
       ⟨"f2", some 2, "AI/大模型"⟩, ⟨"f3", some 3, "AI/大模型"⟩,
       ⟨"f4", some 4, "AI/大模型"⟩, ⟨"f5", some 5, "AI/大模型"⟩,
       ⟨"f6", some 6, "AI/大模型"⟩, ⟨"f7", some 7, "AI/大模型"⟩]
      (fun f =>
        if f = "f0" || f = "f1" || f = "f2" || f = "f3" then some (3 / 10)
        else if f = "f4" || f = "f5" || f = "f6" || f = "f7" then some (1 / 2)
        else none)
      6 =
    ([⟨"AI/大模型", 1 / 5, 3 / 10, 1 / 2, 8⟩], []) := by
  constructor
  · intro label points
    constructor
    · intro h
      unfold trendTag
      rw [if_pos h]
    · intro h6
      have hlt : ¬ points.length < 6 := by omega
      have hlen : (trendSorted points).length = points.length := by
        simp [trendSorted]
      have hmid : ¬ (trendMid points = 0 ∨
          trendMid points = (trendSorted points).length) := by
        unfold trendMid
        rw [hlen]
        push_neg
        constructor <;> omega
      unfold trendTag
      rw [if_neg hlt, if_neg hmid]
      by_cases h1 : 1 / 20 ≤ trendDelta points
      · rw [if_pos h1]
        constructor
        · exact ⟨fun _ => h1, fun _ => rfl⟩
        · constructor
          · intro h
            exact absurd h (by simp)
          · intro h
            exact absurd h1 (by linarith)
      · rw [if_neg h1]
        by_cases h2 : trendDelta points ≤ -(1 / 20)
        · rw [if_pos h2]
          have h1x := not_le.mp h1
          constructor <;> simp <;> linarith
        · rw [if_neg h2]
          push_neg at h1 h2
          constructor <;> simp <;> linarith
  · decide

/-- Witness for C5: a two-point topic is classified in neither list, and the
Scenario E point set is classified improving. -/
theorem C5_cluster_trends_witness :
    trendTag "t" [((0 : Nat), (0 : ℚ)), (1, 0)] 6 = none ∧
    (trendTag "AI/大模型"
        [((0 : Nat), (3 : ℚ) / 10), (1, 3 / 10), (2, 3 / 10), (3, 3 / 10),
         (4, 1 / 2), (5, 1 / 2), (6, 1 / 2), (7, 1 / 2)] 6).map Prod.fst =
      some true :=
  ⟨(C5_cluster_trends.1 "t" [((0 : Nat), (0 : ℚ)), (1, 0)]).1 (by decide),
   ((C5_cluster_trends.1 "AI/大模型"
      [((0 : Nat), (3 : ℚ) / 10), (1, 3 / 10), (2, 3 / 10), (3, 3 / 10),
       (4, 1 / 2), (5, 1 / 2), (6, 1 / 2), (7, 1 / 2)]).2 (by decide)).1.mpr
     (by decide)⟩

/-- One user-loop step raises each signal counter by at most one. -/
theorem userStep_hits_le (f : String) (st : UserScan) (x : String) :
    (userStep f st x).clear_hits ≤ st.clear_hits + 1 ∧
    (userStep f st x).constraint_hits ≤ st.constraint_hits + 1 ∧
    (userStep f st x).context_hits ≤ st.context_hits + 1 ∧
    (userStep f st x).feedback_hits ≤ st.feedback_hits + 1 := by
  simp only [userStep]
  split_ifs <;> simp

/-- After the user loop each signal counter is bounded by its initial value
plus the number of processed messages. -/
theorem foldl_userStep_hits (f : String) :
    ∀ (msgs : List String) (st : UserScan),
      (msgs.foldl (userStep f) st).clear_hits ≤ st.clear_hits + msgs.length ∧
      (msgs.foldl (userStep f) st).constraint_hits ≤ st.constraint_hits + msgs.length ∧
      (msgs.foldl (userStep f) st).context_hits ≤ st.context_hits + msgs.length ∧
      (msgs.foldl (userStep f) st).feedback_hits ≤ st.feedback_hits + msgs.length
  | [], st => by simp
  | x :: msgs, st => by
    have hstep := userStep_hits_le f st x
    have hrec := foldl_userStep_hits f msgs (userStep f st x)
    simp only [List.foldl_cons, List.length_cons]
    refine ⟨?_, ?_, ?_, ?_⟩ <;> omega

/-- A hit/total quotient with the guarded divisor lies in `[0, 1]`. -/
theorem rate_bounds (hits len : Nat) (h : hits ≤ len) :
    0 ≤ (hits : ℚ) / (max 1 len : Nat) ∧ (hits : ℚ) / (max 1 len : Nat) ≤ 1 := by
  have hpos : (0 : ℚ) < ((max 1 len : Nat) : ℚ) := by
    have : 1 ≤ max 1 len := le_max_left 1 len
    exact_mod_cast Nat.lt_of_lt_of_le Nat.zero_lt_one this
  constructor
  · positivity
  · rw [div_le_one hpos]
    have : hits ≤ max 1 len := le_trans h (le_max_right 1 len)
    exact_mod_cast this

/-- C10: every record returned by `analyze_conversation` has its four signal
rates in `[0, 1]`, an iteration flag of 0 or 1, a quality score in `[0, 1]`,
and when the conversation has no user messages the guarded divisor makes all
four rates 0 rather than a division error. -/
theorem C10_conv_record_bounds (messages : List Message)
    (isTool : String → Bool) (clean : String → String)
    (file created : String) (totals : Totals) (qb : QuoteBuckets)
    (bq : List Quote) (r : ConvRecord)
    (h : (analyze_conversation messages isTool clean file created totals qb bq).1 =
      some r) :
    (0 ≤ r.clarity_rate ∧ r.clarity_rate ≤ 1) ∧
    (0 ≤ r.constraint_rate ∧ r.constraint_rate ≤ 1) ∧
    (0 ≤ r.context_rate ∧ r.context_rate ≤ 1) ∧
    (0 ≤ r.feedback_rate ∧ r.feedback_rate ≤ 1) ∧
    (r.iteration = 0 ∨ r.iteration = 1) ∧
    (0 ≤ r.score ∧ r.score ≤ 1) ∧
    (r.user_messages = 0 →
      r.clarity_rate = 0 ∧ r.constraint_rate = 0 ∧ r.context_rate = 0 ∧
      r.feedback_rate = 0) := by
  unfold analyze_conversation at h
  by_cases hempty : (partitionMsgs messages isTool clean).1 = [] ∧
      (partitionMsgs messages isTool clean).2 = []
  · rw [if_pos hempty] at h
    exact absurd h (by simp)
  · rw [if_neg hempty] at h
    simp only [Option.some_inj] at h
    subst h
    set user_msgs := (partitionMsgs messages isTool clean).1 with huser
    set ab := (partitionMsgs messages isTool clean).2.foldl (assistantStep file)
      ({ totals with
          conversations := totals.conversations + 1
          user_messages := totals.user_messages + user_msgs.length
          assistant_messages :=
            totals.assistant_messages + (partitionMsgs messages isTool clean).2.length
          user_chars := totals.user_chars + (user_msgs.map nonSpaceLen).sum
          assistant_chars := totals.assistant_chars +
            ((partitionMsgs messages isTool clean).2.map nonSpaceLen).sum }, bq)
    have hh := foldl_userStep_hits file user_msgs ⟨0, 0, 0, 0, 0, ab.1, qb⟩
    set us := user_msgs.foldl (userStep file) ⟨0, 0, 0, 0, 0, ab.1, qb⟩ with hus
    simp only at hh
    obtain ⟨h1, h2, h3, h4⟩ := hh
    have r1 := rate_bounds us.clear_hits user_msgs.length (by omega)
    have r2 := rate_bounds us.constraint_hits user_msgs.length (by omega)
    have r3 := rate_bounds us.context_hits user_msgs.length (by omega)
    have r4 := rate_bounds us.feedback_hits user_msgs.length (by omega)
    have hiter : (if 2 ≤ user_msgs.length then (1 : Nat) else 0) = 0 ∨
        (if 2 ≤ user_msgs.length then (1 : Nat) else 0) = 1 := by
      split_ifs <;> simp
    have hiterle : ((if 2 ≤ user_msgs.length then 1 else 0 : Nat) : ℚ) ≤ 1 := by
      have hb : (if 2 ≤ user_msgs.length then 1 else 0 : Nat) ≤ 1 := by
        split_ifs <;> omega
      exact_mod_cast hb
    have hiterge : (0 : ℚ) ≤ ((if 2 ≤ user_msgs.length then 1 else 0 : Nat) : ℚ) :=
      Nat.cast_nonneg _
    refine ⟨r1, r2, r3, r4, hiter, ⟨?_, ?_⟩, ?_⟩
    · positivity
    · rw [div_le_one (by norm_num : (0 : ℚ) < 5)]
      linarith [r1.2, r2.2, r3.2, r4.2, hiterle]
    · intro hzero
      have hnil : user_msgs = [] := List.eq_nil_of_length_eq_zero hzero
      have hus : us = ⟨0, 0, 0, 0, 0, ab.1, qb⟩ := by
        rw [hus, hnil]
        rfl
      rw [hus]
      simp

/-- Witness for C10 on a one-user-message conversation. -/
theorem C10_conv_record_witness :
    (analyze_conversation [⟨"user", "你好"⟩] (fun _ => false) (fun s => s) "f" "c"
        ⟨0, 0, 0, 0, 0, 0, 0, 0, 0, 0, 0⟩ ⟨[], [], [], [], []⟩ []).1 =
      some ⟨"f", "c", 1, 0, 0, 0, 0, 0, 0, 0⟩ ∧
    (0 ≤ (⟨"f", "c", 1, 0, 0, 0, 0, 0, 0, 0⟩ : ConvRecord).score ∧
      (⟨"f", "c", 1, 0, 0, 0, 0, 0, 0, 0⟩ : ConvRecord).score ≤ 1) :=
  ⟨by decide,
   (C10_conv_record_bounds [⟨"user", "你好"⟩] (fun _ => false) (fun s => s) "f" "c"
      ⟨0, 0, 0, 0, 0, 0, 0, 0, 0, 0, 0⟩ ⟨[], [], [], [], []⟩ []
      ⟨"f", "c", 1, 0, 0, 0, 0, 0, 0, 0⟩ (by decide)).2.2.2.2.2.1⟩

/-- C8: a manifest row whose referenced text file is missing does not abort
`build_index`: the row is processed with the empty message list (the
`os.path.exists` branch) and still yields an index item at its position —
with the row's identity fields, an empty snippet and the highlights of an
empty message list — and the item list keeps one entry per row. -/
theorem C8_missing_file_degrades (parse : String → List Message)
    (nb : String → String) (hl : List Message → List String)
    (stripArt : String → String) (lnQ : Nat → ℚ) (idfQ : Nat → Nat → ℚ)
    (rows : List Row) (fs : String → Option String) (snippet_len : Nat)
    (file_root : String) (i : Nat) (hi : i < rows.length)
    (hmiss : fs (rows.get ⟨i, hi⟩).file = none) :
    (buildItems parse nb hl stripArt lnQ idfQ rows fs snippet_len file_root).length =
      rows.length ∧
    rowMessages parse fs (rows.get ⟨i, hi⟩).file = [] ∧
    ∃ hj : i < (buildItems parse nb hl stripArt lnQ idfQ rows fs snippet_len
        file_root).length,
      ((buildItems parse nb hl stripArt lnQ idfQ rows fs snippet_len
          file_root).get ⟨i, hj⟩).index = (rows.get ⟨i, hi⟩).index ∧
      ((buildItems parse nb hl stripArt lnQ idfQ rows fs snippet_len
          file_root).get ⟨i, hj⟩).title =
        (if (rows.get ⟨i, hi⟩).title = "" then "Untitled"
         else (rows.get ⟨i, hi⟩).title) ∧
      ((buildItems parse nb hl stripArt lnQ idfQ rows fs snippet_len
          file_root).get ⟨i, hj⟩).messages = (rows.get ⟨i, hi⟩).messages ∧
      ((buildItems parse nb hl stripArt lnQ idfQ rows fs snippet_len
          file_root).get ⟨i, hj⟩).snippet = "" ∧
      ((buildItems parse nb hl stripArt lnQ idfQ rows fs snippet_len
          file_root).get ⟨i, hj⟩).highlights = hl [] := by
  have hmsgs : rowMessages parse fs (rows.get ⟨i, hi⟩).file = [] := by
    unfold rowMessages
    rw [hmiss]
  have hlen : (buildItems parse nb hl stripArt lnQ idfQ rows fs snippet_len
      file_root).length = rows.length := by
    simp [buildItems, buildItemsWith]
  refine ⟨hlen, hmsgs, ?_⟩
  have hj : i < (buildItems parse nb hl stripArt lnQ idfQ rows fs snippet_len
      file_root).length := by omega
  refine ⟨hj, ?_⟩
  simp only [List.get_eq_getElem] at hmsgs ⊢
  have hext : extract_text nb (rowMessages parse fs rows[i].file) = "" := by
    rw [hmsgs]
    rfl
  simp only [buildItems, buildItemsWith, List.getElem_map, List.getElem_zip,
    rowBase]
  refine ⟨trivial, trivial, trivial, ?_, ?_⟩
  · show String.mk (pyStrip
      ((extract_text nb (rowMessages parse fs rows[i].file)).data.take snippet_len)) = ""
    rw [hext]
    show String.mk (pyStrip (List.take snippet_len ([] : List Char))) = ""
    rw [List.take_nil]
    rfl
  · show hl (rowMessages parse fs rows[i].file) = hl []
    rw [hmsgs]

/-- Witness for C8 on a one-row manifest whose file is absent. -/
theorem C8_missing_file_witness :
    (buildItems (fun _ => []) (fun s => s) (fun _ => []) (fun s => s)
        (fun _ => 0) (fun _ _ => 1) [⟨1, "T", "", "", 2, "missing.md"⟩]
        (fun _ => none) 180 "data").length = 1 ∧
    rowMessages (fun _ => []) (fun _ => none) "missing.md" = [] :=
  ⟨(C8_missing_file_degrades (fun _ => []) (fun s => s) (fun _ => [])
      (fun s => s) (fun _ => 0) (fun _ _ => 1) [⟨1, "T", "", "", 2, "missing.md"⟩]
      (fun _ => none) 180 "data" 0 (by decide) rfl).1,
   (C8_missing_file_degrades (fun _ => []) (fun s => s) (fun _ => [])
      (fun s => s) (fun _ => 0) (fun _ _ => 1) [⟨1, "T", "", "", 2, "missing.md"⟩]
      (fun _ => none) 180 "data" 0 (by decide) rfl).2.1⟩

/-- The max-match candidate test only inspects vocabulary membership. -/
theorem segHit_congr {v1 v2 : List String} (h : ∀ t, t ∈ v1 ↔ t ∈ v2)
    (seq : List Char) (n : Nat) : segHit seq v1 n = segHit seq v2 n := by
  unfold segHit
  simp only [h]

/-- The fuelled segmentation scan only inspects vocabulary membership. -/
theorem segment_zhF_congr {v1 v2 : List String} (h : ∀ t, t ∈ v1 ↔ t ∈ v2) :
    ∀ (fuel : Nat) (seq : List Char),
      segment_zhF v1 fuel seq = segment_zhF v2 fuel seq
  | 0, [] => rfl
  | _ + 1, [] => rfl
  | 0, _ :: _ => rfl
  | fuel + 1, c :: rest => by
    have hc := segment_zhF_congr h fuel
    simp only [segment_zhF, segHit_congr h (c :: rest) 4,
      segHit_congr h (c :: rest) 3, segHit_congr h (c :: rest) 2]
    split_ifs <;> simp [hc]

/-- Trigger sets are only summed over: a permuted trigger set scores the
same. -/
theorem ruleScore_congr (term_counts : List (String × Nat))
    {t1 t2 : List String} (h : t1.Perm t2) :
    ruleScore term_counts t1 = ruleScore term_counts t2 := by
  unfold ruleScore
  exact (h.map fun trig => lowerCount term_counts (strLower trig)).sum_eq

/-- The rule-scan fold is invariant under permuting each rule's trigger set. -/
theorem bestRule_congr {rules1 rules2 : List (String × List String)}
    (h : List.Forall₂ (fun a b => a.1 = b.1 ∧ a.2.Perm b.2) rules1 rules2)
    (term_counts : List (String × Nat)) :
    bestRule rules1 term_counts = bestRule rules2 term_counts := by
  unfold bestRule
  suffices hs : ∀ init : Option String × Nat,
      rules1.foldl
        (fun best rule =>
          let score := ruleScore term_counts rule.2
          if best.2 < score then (some rule.1, score) else best) init =
      rules2.foldl
        (fun best rule =>
          let score := ruleScore term_counts rule.2
          if best.2 < score then (some rule.1, score) else best) init by
    exact hs (none, 0)
  induction h with
  | nil => intro init; rfl
  | cons hab _ ih =>
    intro init
    simp only [List.foldl_cons]
    rw [ruleScore_congr term_counts hab.2, hab.1]
    exact ih _

/-- The topic classifier is invariant under permuting each rule's trigger
set. -/
theorem assignTopicLabelWith_congr {rules1 rules2 : List (String × List String)}
    (h : List.Forall₂ (fun a b => a.1 = b.1 ∧ a.2.Perm b.2) rules1 rules2)
    (term_counts : List (String × Nat)) (kws : List String)
    (doc_freq : String → Nat) (total_docs : Nat) :
    assignTopicLabelWith rules1 term_counts kws doc_freq total_docs =
      assignTopicLabelWith rules2 term_counts kws doc_freq total_docs := by
  unfold assignTopicLabelWith
  rw [bestRule_congr h term_counts]

/-- C9: the index pipeline is deterministic.  In the embedding every emitted
item is a pure function of the manifest rows, the file contents and the
configuration; the two places where CPython iterates a hash set (the trigger
set of each topic rule, and the bootstrapped vocabulary set consumed by the
segmenter) do not affect the output: the item list is invariant under
permuting every rule's trigger set, and segmentation is invariant under any
reordering (even any membership-preserving change) of the vocabulary. -/
theorem C9_deterministic_pipeline :
    (∀ (parse : String → List Message) (nb : String → String)
      (hl : List Message → List String) (stripArt : String → String)
      (lnQ : Nat → ℚ) (idfQ : Nat → Nat → ℚ)
      (rules1 rules2 : List (String × List String)),
      List.Forall₂ (fun a b => a.1 = b.1 ∧ a.2.Perm b.2) rules1 rules2 →
      ∀ (rows : List Row) (fs : String → Option String) (snippet_len : Nat)
        (file_root : String),
        buildItemsWith parse nb hl stripArt lnQ idfQ rules1 rows fs snippet_len
          file_root =
        buildItemsWith parse nb hl stripArt lnQ idfQ rules2 rows fs snippet_len
          file_root) ∧
    (∀ (seq : List Char) (v1 v2 : List String), v1.Perm v2 →
      segment_zh seq v1 = segment_zh seq v2) := by
  constructor
  · intro parse nb hl stripArt lnQ idfQ rules1 rules2 h rows fs snippet_len file_root
    unfold buildItemsWith
    apply List.map_congr_left
    intro bc _
    simp only [assignTopicLabelWith_congr h]
  · intro seq v1 v2 h
    unfold segment_zh
    exact segment_zhF_congr (fun t => h.mem_iff) seq.length seq

/-- Witness for C9: a reversed trigger set and a reversed vocabulary leave
the outputs unchanged on concrete inputs. -/
theorem C9_deterministic_pipeline_witness :
    buildItemsWith (fun _ => []) (fun s => s) (fun _ => []) (fun s => s)
        (fun _ => 0) (fun _ _ => 1) [("a", ["x", "y"])]
        [⟨1, "T", "", "", 2, "f.md"⟩] (fun _ => none) 180 "data" =
      buildItemsWith (fun _ => []) (fun s => s) (fun _ => []) (fun s => s)
        (fun _ => 0) (fun _ _ => 1) [("a", ["y", "x"])]
        [⟨1, "T", "", "", 2, "f.md"⟩] (fun _ => none) 180 "data" ∧
    segment_zh "投资理财".data ["投资", "理财"] =
      segment_zh "投资理财".data ["理财", "投资"] :=
  ⟨C9_deterministic_pipeline.1 (fun _ => []) (fun s => s) (fun _ => [])
      (fun s => s) (fun _ => 0) (fun _ _ => 1) [("a", ["x", "y"])]
      [("a", ["y", "x"])]
      (List.Forall₂.cons ⟨rfl, by decide⟩ List.Forall₂.nil)
      [⟨1, "T", "", "", 2, "f.md"⟩] (fun _ => none) 180 "data",
   C9_deterministic_pipeline.2 "投资理财".data ["投资", "理财"] ["理财", "投资"]
      (by decide)⟩

end Insights
